import Mathlib

/-!
Shallow embedding of the LinguistAI single-page application
(src/components/AudioVisualizer.tsx, VeoAnimator.tsx, Navigation.tsx,
src/types.ts, and the app shell).

The live-conversation controller is modelled as a record of the React
refs and state it owns; its `cleanup` teardown and `onmessage` callback
become pure functions from state to state, paired with a list of
observable effects (track/source stops, context closes, source starts,
timer registrations).  Times on the playback clock are rationals.  The
audio decode helper (utils/audioUtils, whose source is not in the
repository snapshot) is abstracted as a function from the base64 payload
to the optional duration of the decoded buffer (`none` models a decode
failure, which the handler catches and drops).

The three media panels (video animator, image editor, search panel)
become functions from the panel state plus an explicit environment (the
results the remote SDK calls would return) to the new panel state; the
video panel additionally reports how many status fetches its polling
loop issued.
-/

namespace LinguistAI

/-- Observable side effects of the live-conversation controller:
stopping a microphone track, stopping a scheduled playback source,
closing the capture or playback audio context, starting a playback
source at a given playback-clock time, and registering a delayed
transcript-clearing timer (the sole `setTimeout` in the component). -/
inductive Effect where
  | stopTrack (id : Nat)
  | stopSource (id : Nat)
  | closeInputCtx
  | closeOutputCtx
  | startSource (id : Nat) (time : ℚ)
  | setTimer (delayMs : Nat)
  deriving DecidableEq, Repr

/-- State owned by the `LiveConversation` component: the React state
(`isConnected`, `error`, the two accumulating transcript strings) and
the refs (media stream with its track ids, the two audio contexts, the
session handle, the set of scheduled playback sources, and the
next-start-time cursor). -/
structure LiveState where
  isConnected : Bool
  error : Option String
  transUser : String
  transModel : String
  mediaStream : Option (List Nat)
  inputAudioContext : Option Unit
  outputAudioContext : Option Unit
  session : Option Unit
  sources : List Nat
  nextStartTime : ℚ
  deriving DecidableEq, Repr

/-- The `cleanup` callback: stop and drop the microphone tracks, close
the capture context, stop every tracked playback source and close the
playback context, drop the session handle, clear the connected flag and
reset the cursor.  Every release is guarded by a null check, as in the
source. -/
def cleanup (s : LiveState) : LiveState × List Effect :=
  let p1 : LiveState × List Effect :=
    match s.mediaStream with
    | some tracks => ({ s with mediaStream := none }, tracks.map Effect.stopTrack)
    | none => (s, [])
  let p2 : LiveState × List Effect :=
    match p1.1.inputAudioContext with
    | some _ => ({ p1.1 with inputAudioContext := none }, [Effect.closeInputCtx])
    | none => (p1.1, [])
  let p3 : LiveState × List Effect :=
    match p2.1.outputAudioContext with
    | some _ =>
        ({ p2.1 with sources := [], outputAudioContext := none },
         p2.1.sources.map Effect.stopSource ++ [Effect.closeOutputCtx])
    | none => (p2.1, [])
  ({ p3.1 with session := none, isConnected := false, nextStartTime := 0 },
   p1.2 ++ p2.2 ++ p3.2)

/-- The fields of a `LiveServerMessage` that the `onmessage` callback
reads: optional output/input transcription text, the turn-complete flag,
the optional inline base64 audio payload of the first model-turn part,
and the interrupted flag. -/
structure ServerMessage where
  outputTranscriptionText : Option String
  inputTranscriptionText : Option String
  turnComplete : Bool
  audioData : Option String
  interrupted : Bool
  deriving DecidableEq, Repr

/-- Transcription handling at the top of `onmessage`: append the output
transcription text to the model transcript and the input transcription
text to the user transcript, when present. -/
def applyTranscription (m : ServerMessage) (s : LiveState) : LiveState :=
  let s1 :=
    match m.outputTranscriptionText with
    | some t => { s with transModel := s.transModel ++ t }
    | none => s
  match m.inputTranscriptionText with
  | some t => { s1 with transUser := s1.transUser ++ t }
  | none => s1

/-- Turn-complete handling: the state is not modified; a 3000 ms timer
whose callback clears both transcript strings is registered. -/
def applyTurnComplete (m : ServerMessage) (s : LiveState) : LiveState × List Effect :=
  if m.turnComplete then (s, [Effect.setTimer 3000]) else (s, [])

/-- Audio-output handling: when a non-empty base64 payload is present
and the playback context exists, raise the cursor to the playback
clock's current time, decode the payload (a failure is caught and the
payload dropped), start a source at the cursor, advance the cursor by
the buffer's duration, and add the source to the tracked set.
`decodeDur` abstracts `decodeAudioData ∘ decode` as the duration of the
decoded buffer; `now` is `ctx.currentTime` at this callback; `freshId`
identifies the newly created buffer source. -/
def applyAudio (decodeDur : String → Option ℚ) (now : ℚ) (freshId : Nat)
    (m : ServerMessage) (s : LiveState) : LiveState × List Effect :=
  match m.audioData, s.outputAudioContext with
  | some b64, some _ =>
      if b64 = "" then (s, [])
      else
        let s1 := { s with nextStartTime := max s.nextStartTime now }
        match decodeDur b64 with
        | some dur =>
            ({ s1 with
                nextStartTime := s1.nextStartTime + dur,
                sources := s1.sources ++ [freshId] },
             [Effect.startSource freshId s1.nextStartTime])
        | none => (s1, [])
  | _, _ => (s, [])

/-- Interruption handling: stop every tracked source, clear the tracked
set, reset the cursor to zero, and clear the cut-off model transcript. -/
def applyInterrupted (m : ServerMessage) (s : LiveState) : LiveState × List Effect :=
  if m.interrupted then
    ({ s with sources := [], nextStartTime := 0, transModel := "" },
     s.sources.map Effect.stopSource)
  else (s, [])

/-- The `onmessage` callback: transcription handling, turn-complete
handling, audio-output handling, then interruption handling, in the
source's order. -/
def onmessage (decodeDur : String → Option ℚ) (now : ℚ) (freshId : Nat)
    (s : LiveState) (m : ServerMessage) : LiveState × List Effect :=
  let s1 := applyTranscription m s
  let p2 := applyTurnComplete m s1
  let p3 := applyAudio decodeDur now freshId m p2.1
  let p4 := applyInterrupted m p3.1
  (p4.1, p2.2 ++ p3.2 ++ p4.2)

/-- The `onerror` callback of the live session: it surfaces a fixed
user-visible message and clears the connected flag, and does nothing
else. -/
def onerror (s : LiveState) : LiveState :=
  { s with error := some "Connection error occurred.", isConnected := false }

/-- A message that carries only an inline audio payload. -/
def audioMsg (b64 : String) : ServerMessage :=
  { outputTranscriptionText := none, inputTranscriptionText := none,
    turnComplete := false, audioData := some b64, interrupted := false }

/-- The playback-clock time at which a `startSource` effect schedules
its source, if the effect is one. -/
def startTimeOf : Effect → Option ℚ
  | Effect.startSource _ t => some t
  | _ => none

/-- Run `onmessage` over a sequence of audio-only payloads; each list
entry is the base64 payload, the playback clock's current time when its
message is handled, and the fresh source id.  Returns the final state
and, for each payload that was actually scheduled, the triple of its
assigned start time, its decoded duration, and the clock time at its
scheduling. -/
def runAudio (decodeDur : String → Option ℚ) (s : LiveState) :
    List (String × ℚ × Nat) → LiveState × List (ℚ × ℚ × ℚ)
  | [] => (s, [])
  | (b64, now, id) :: rest =>
      let p := onmessage decodeDur now id s (audioMsg b64)
      let q := runAudio decodeDur p.1 rest
      (q.1,
       (p.2.filterMap startTimeOf).map
         (fun t => (t, (decodeDur b64).getD 0, now)) ++ q.2)

/-- Whether the character list `pat` occurs as a prefix of `cs`. -/
def charsStartWith : List Char → List Char → Bool
  | [], _ => true
  | _ :: _, [] => false
  | p :: ps, c :: cs => p == c && charsStartWith ps cs

/-- Whether the character list `pat` occurs contiguously inside `cs`
(the semantics of JavaScript `String.prototype.includes`). -/
def charsContain (pat : List Char) : List Char → Bool
  | [] => charsStartWith pat []
  | c :: cs => charsStartWith pat (c :: cs) || charsContain pat cs

/-- JavaScript `s.includes(pat)` on strings. -/
def strIncludes (s pat : String) : Bool :=
  charsContain pat.data s.data

/-- The long-running video operation handle as `handleGenerate` reads
it: the completion flag, the optional error payload (carrying its
message string, with the empty string standing for an absent message
field), and the optional result video URI
(`operation.response?.generatedVideos?.[0]?.video?.uri`). -/
structure Operation where
  done : Bool
  errorMsg : Option String
  videoUri : Option String
  deriving DecidableEq, Repr

/-- State of the `VeoAnimator` panel. -/
structure VeoState where
  hasFile : Bool
  prompt : String
  videoUrl : Option String
  isLoading : Bool
  status : String
  error : Option String
  deriving DecidableEq, Repr

/-- Environment of one `handleGenerate` run: whether an API key is
already selected, the result of the `generateVideos` submission (an
`error` is a thrown exception's message), the successive results of the
`getVideosOperation` status fetches, and the result of fetching the
final video URI (on success, the local object URL created from the
downloaded blob). -/
structure VeoEnv where
  hasKey : Bool
  submit : Except String Operation
  polls : List Operation
  fetchResult : String → Except String String

/-- The `while (!operation.done)` polling loop: re-fetch the operation
until its `done` flag is set, drawing successive fetch results from
`polls`.  Returns the terminal operation and the number of status
fetches issued, or `none` when the loop runs past the end of `polls`
(the loop itself imposes no bound). -/
def runPoll : Operation → List Operation → Option (Operation × Nat)
  | op, polls =>
      if op.done then some (op, 0)
      else
        match polls with
        | [] => none
        | p :: rest =>
            match runPoll p rest with
            | some (fin, n) => some (fin, n + 1)
            | none => none

/-- The `catch` clause of `handleGenerate`: a message containing
"Requested entity was not found" is replaced by a fixed session-expired
message; otherwise the thrown message is surfaced, with a fixed fallback
when it is empty. -/
def veoCatch (s : VeoState) (msg : String) : VeoState :=
  if msg ≠ "" ∧ strIncludes msg "Requested entity was not found" then
    { s with error := some "Session expired or key invalid. Please try again to select a key." }
  else
    { s with error :=
        (some (if msg = "" then "An error occurred during video generation." else msg)) }

/-- The `finally` clause of `handleGenerate`: clear the loading flag and
the status string. -/
def veoFinally (s : VeoState) : VeoState :=
  { s with isLoading := false, status := "" }

/-- The `handleGenerate` click handler of the video panel.  Returns the
panel state after the run settles together with the number of status
fetches issued, or `none` when the polling loop never reaches a terminal
operation within `env.polls`.  The early `if (!file) return` guard
leaves the state untouched and issues no fetch. -/
def handleGenerate (env : VeoEnv) (s : VeoState) : Option (VeoState × Nat) :=
  if !s.hasFile then some (s, 0)
  else
    let s1 := { s with error := none, isLoading := true,
                       status := "Checking API Key permissions..." }
    let s2 := if env.hasKey then s1
              else { s1 with status := "Waiting for API Key selection..." }
    let s3 := { s2 with status := "Uploading and processing image..." }
    let s4 := { s3 with status := "Initializing generation (this may take a minute)..." }
    match env.submit with
    | Except.error msg => some (veoFinally (veoCatch s4 msg), 0)
    | Except.ok op0 =>
        let s5 := { s4 with status := "Generating video frames..." }
        match runPoll op0 env.polls with
        | none => none
        | some (fin, n) =>
            match fin.errorMsg with
            | some m =>
                some (veoFinally (veoCatch s5
                        (if m = "" then "Unknown generation error" else m)), n)
            | none =>
                match fin.videoUri with
                | none => some (veoFinally (veoCatch s5 "No video URI returned."), n)
                | some uri =>
                    let s6 := { s5 with status := "Fetching final video..." }
                    match env.fetchResult uri with
                    | Except.error m => some (veoFinally (veoCatch s6 m), n)
                    | Except.ok localUrl =>
                        some (veoFinally { s6 with videoUrl := some localUrl }, n)

/-- One part of the image-editing response: the optional inline image
data and the optional text. -/
structure ImgPart where
  inlineDataVal : Option String
  textVal : Option String
  deriving DecidableEq, Repr

/-- The image-editing response as `handleEdit` reads it:
`response.candidates?.[0]?.content?.parts`. -/
structure ImgResponse where
  parts : Option (List ImgPart)
  deriving DecidableEq, Repr

/-- State of the `ImageEditor` panel. -/
structure ImgState where
  hasFile : Bool
  prompt : String
  resultImage : Option String
  loading : Bool
  deriving DecidableEq, Repr

/-- The extraction loop of `handleEdit`: scan the parts for the first
one carrying inline data, build its data URL, and stop (`break`). -/
def extractImage : List ImgPart → Option String
  | [] => none
  | p :: rest =>
      match p.inlineDataVal with
      | some d => some ("data:image/png;base64," ++ d)
      | none => extractImage rest

/-- The `handleEdit` click handler of the image panel.  `resp` is the
outcome of the `generateContent` call (an `error` is a thrown
exception).  The returned flag records whether the failure `alert` was
shown.  The early `if (!file || !prompt) return` guard leaves the state
untouched. -/
def handleEdit (resp : Except String ImgResponse) (s : ImgState) : ImgState × Bool :=
  if !s.hasFile || s.prompt = "" then (s, false)
  else
    let s1 := { s with loading := true, resultImage := none }
    match resp with
    | Except.error _ => ({ s1 with loading := false }, true)
    | Except.ok r =>
        let s2 :=
          match r.parts with
          | some ps =>
              match extractImage ps with
              | some url => { s1 with resultImage := some url }
              | none => s1
          | none => s1
        ({ s2 with loading := false }, false)

/-- A grounding citation as the search panel renders it: an optional web
payload of URI and title. -/
structure WebChunk where
  uri : String
  title : String
  deriving DecidableEq, Repr

/-- The search response as `handleSearch` reads it: the response text
(with the empty string standing for an absent `result.text`) and the
optional grounding chunks of the first candidate. -/
structure SearchOutcome where
  text : String
  chunks : Option (List (Option WebChunk))
  deriving DecidableEq, Repr

/-- State of the `SearchQuery` panel. -/
structure SearchState where
  query : String
  response : String
  groundingChunks : List (Option WebChunk)
  loading : Bool
  deriving DecidableEq, Repr

/-- JavaScript `String.prototype.trim`: drop whitespace from both ends
of the string. -/
def jsTrim (s : String) : String :=
  String.mk
    (((s.data.dropWhile Char.isWhitespace).reverse.dropWhile
        Char.isWhitespace).reverse)

/-- The `handleSearch` submit handler of the search panel.  `res` is the
outcome of the `generateContent` call.  The early
`if (!query.trim()) return` guard leaves the state untouched. -/
def handleSearch (res : Except String SearchOutcome) (s : SearchState) : SearchState :=
  if jsTrim s.query = "" then s
  else
    let s1 := { s with loading := true, response := "", groundingChunks := [] }
    match res with
    | Except.ok r =>
        let s2 := { s1 with response :=
          if r.text = "" then "No response generated." else r.text }
        let s3 := { s2 with groundingChunks := r.chunks.getD [] }
        { s3 with loading := false }
    | Except.error m =>
        { { s1 with response := "Error: " ++ m } with loading := false }

/-- A concrete fully populated open-session state, used to exercise the
teardown and the message handler on explicit inputs. -/
def stOpen : LiveState :=
  { isConnected := true, error := none, transUser := "u", transModel := "m",
    mediaStream := some [0, 1], inputAudioContext := some (),
    outputAudioContext := some (), session := some (),
    sources := [5, 6], nextStartTime := 10 }

/-- A concrete message carrying an audio payload and the interrupted
flag. -/
def msgInterrupt : ServerMessage :=
  { outputTranscriptionText := none, inputTranscriptionText := none,
    turnComplete := false, audioData := some "a", interrupted := true }

/-- A concrete message carrying transcription text and the
turn-complete flag. -/
def msgTurn : ServerMessage :=
  { outputTranscriptionText := some "x", inputTranscriptionText := none,
    turnComplete := true, audioData := none, interrupted := false }

/-- A concrete decode abstraction: every payload decodes to a buffer of
duration 2, except "bad", which fails to decode. -/
def decSome : String → Option ℚ :=
  fun b => if b = "bad" then none else some 2

/-- A concrete audio-payload sequence: the clock times 3, 20, 4 arrive
out of order relative to the payloads, and the middle payload fails to
decode. -/
def msgsW : List (String × ℚ × Nat) :=
  [("a", 3, 7), ("bad", 20, 8), ("b", 4, 9)]

/-- The idle video-panel state with a file selected. -/
def vsIdle : VeoState :=
  { hasFile := true, prompt := "", videoUrl := none, isLoading := false,
    status := "", error := none }

/-- The video-panel state with no file selected. -/
def vsNoFile : VeoState :=
  { hasFile := false, prompt := "p", videoUrl := none, isLoading := false,
    status := "st", error := some "old" }

/-- A pending video operation. -/
def opPending : Operation :=
  { done := false, errorMsg := none, videoUri := none }

/-- A terminal video operation carrying a result URI. -/
def opDoneUri : Operation :=
  { done := true, errorMsg := none, videoUri := some "uri1" }

/-- A terminal video operation whose error payload carries the
not-found message. -/
def opDoneEntityErr : Operation :=
  { done := true, errorMsg := some "Requested entity was not found",
    videoUri := none }

/-- A terminal video operation whose error payload carries an ordinary
message. -/
def opDoneBoom : Operation :=
  { done := true, errorMsg := some "boom", videoUri := none }

/-- A concrete environment in which the submission is pending, one poll
still reports pending and the next reports done with a URI. -/
def envOk : VeoEnv :=
  { hasKey := true, submit := Except.ok opPending,
    polls := [opPending, opDoneUri],
    fetchResult := fun u => Except.ok ("blob:" ++ u) }

/-- A concrete environment in which the submitted job terminates at once
with the not-found error payload. -/
def envEntityErr : VeoEnv :=
  { hasKey := true, submit := Except.ok opDoneEntityErr, polls := [],
    fetchResult := fun u => Except.ok u }

/-- A concrete environment in which the submitted job terminates at once
with an ordinary error payload. -/
def envBoom : VeoEnv :=
  { hasKey := true, submit := Except.ok opDoneBoom, polls := [],
    fetchResult := fun u => Except.ok u }

/-- The idle image-panel state with a file and a prompt. -/
def imgIdle : ImgState :=
  { hasFile := true, prompt := "p", resultImage := some "old",
    loading := false }

/-- The image-panel state with a file but an empty prompt. -/
def imgNoPrompt : ImgState :=
  { hasFile := true, prompt := "", resultImage := some "old",
    loading := true }

/-- The search-panel state with a whitespace-only query. -/
def srchWs : SearchState :=
  { query := "  ", response := "r", groundingChunks := [], loading := true }

/-- Whether an effect is a transcript-clearing timer that has already
fired `t` milliseconds after registration. -/
def timerFiredBy (t : Nat) : Effect → Bool
  | Effect.setTimer dl => decide (dl ≤ t)
  | _ => false

/-- The transcript pair visible `t` milliseconds after a handler run
that left transcripts `base` and registered the effects `effs`: once a
registered transcript-clearing timer's delay has elapsed, its callback
has set both strings empty. -/
def transcriptAt (base : String × String) (effs : List Effect) (t : Nat) :
    String × String :=
  if effs.any (timerFiredBy t) then ("", "") else base

lemma applyTranscription_sources (m : ServerMessage) (s : LiveState) :
    (applyTranscription m s).sources = s.sources := by
  unfold applyTranscription
  cases m.outputTranscriptionText <;> cases m.inputTranscriptionText <;> rfl

lemma applyTranscription_isConnected (m : ServerMessage) (s : LiveState) :
    (applyTranscription m s).isConnected = s.isConnected := by
  unfold applyTranscription
  cases m.outputTranscriptionText <;> cases m.inputTranscriptionText <;> rfl

lemma applyTurnComplete_fst (m : ServerMessage) (s : LiveState) :
    (applyTurnComplete m s).1 = s := by
  unfold applyTurnComplete
  split <;> rfl

lemma applyAudio_sources_mem (d : String → Option ℚ) (now : ℚ) (f : Nat)
    (m : ServerMessage) (s : LiveState) (id : Nat) (h : id ∈ s.sources) :
    id ∈ (applyAudio d now f m s).1.sources := by
  unfold applyAudio
  rcases m.audioData with _ | b64 <;> rcases hoc : s.outputAudioContext with _ | u
  · exact h
  · exact h
  · exact h
  · by_cases hb : b64 = ""
    · simp only [hb, if_pos rfl]
      exact h
    · simp only [if_neg hb]
      rcases d b64 with _ | dur
      · exact h
      · exact List.mem_append_left _ h

lemma applyAudio_isConnected (d : String → Option ℚ) (now : ℚ) (f : Nat)
    (m : ServerMessage) (s : LiveState) :
    (applyAudio d now f m s).1.isConnected = s.isConnected := by
  unfold applyAudio
  rcases m.audioData with _ | b64 <;> rcases s.outputAudioContext with _ | u <;>
    try rfl
  by_cases hb : b64 = ""
  · simp [hb]
  · simp only [if_neg hb]
    rcases d b64 with _ | dur <;> rfl

lemma applyInterrupted_isConnected (m : ServerMessage) (s : LiveState) :
    (applyInterrupted m s).1.isConnected = s.isConnected := by
  unfold applyInterrupted
  split <;> rfl

/-- Claim C2: after the live-session message handler processes a message
carrying the interrupted flag, the tracked set of scheduled playback
sources is empty, the next-start-time cursor is zero, and a stop was
issued for every source that was tracked when the message arrived. -/
theorem interrupt_flushes_playback (d : String → Option ℚ) (now : ℚ)
    (freshId : Nat) (s : LiveState) (m : ServerMessage)
    (h : m.interrupted = true) :
    (onmessage d now freshId s m).1.sources = [] ∧
    (onmessage d now freshId s m).1.nextStartTime = 0 ∧
    ∀ id ∈ s.sources,
      Effect.stopSource id ∈ (onmessage d now freshId s m).2 := by
  unfold onmessage
  refine ⟨?_, ?_, ?_⟩
  · simp only [applyInterrupted, h, if_pos]
  · simp only [applyInterrupted, h, if_pos]
  · intro id hid
    simp only [applyInterrupted, h, if_pos, List.mem_append]
    right
    refine List.mem_map.mpr ⟨id, ?_, rfl⟩
    apply applyAudio_sources_mem
    rw [applyTurnComplete_fst, applyTranscription_sources]
    exact hid

/-- Witness for C2: a concrete interrupted message against a state
tracking sources 5 and 6, one of which is shown stopped. -/
theorem interrupt_flushes_playback_witness :
    (onmessage decSome 1 7 stOpen msgInterrupt).1.sources = [] ∧
    (onmessage decSome 1 7 stOpen msgInterrupt).1.nextStartTime = 0 ∧
    Effect.stopSource 5 ∈ (onmessage decSome 1 7 stOpen msgInterrupt).2 := by
  have h := interrupt_flushes_playback decSome 1 7 stOpen msgInterrupt rfl
  exact ⟨h.1, h.2.1, h.2.2 5 (by decide)⟩

/-- Claim C4: the teardown is idempotent.  Under the component's
reachability invariant (sources are only tracked while the playback
context exists), one `cleanup` call leaves every resource handle null
and the source set empty, and a second call changes nothing and
releases nothing. -/
theorem cleanup_idempotent (s : LiveState)
    (h : s.outputAudioContext = none → s.sources = []) :
    ((cleanup s).1.mediaStream = none ∧
     (cleanup s).1.inputAudioContext = none ∧
     (cleanup s).1.outputAudioContext = none ∧
     (cleanup s).1.session = none ∧
     (cleanup s).1.sources = []) ∧
    cleanup (cleanup s).1 = ((cleanup s).1, []) := by
  cases s with
  | mk conn err tu tm ms ic oc sess srcs nst =>
    cases ms <;> cases ic <;> cases oc <;> simp_all [cleanup]

/-- Witness for C4: a concrete fully populated open-session state. -/
theorem cleanup_idempotent_witness :
    ((cleanup stOpen).1.mediaStream = none ∧
     (cleanup stOpen).1.inputAudioContext = none ∧
     (cleanup stOpen).1.outputAudioContext = none ∧
     (cleanup stOpen).1.session = none ∧
     (cleanup stOpen).1.sources = []) ∧
    cleanup (cleanup stOpen).1 = ((cleanup stOpen).1, []) :=
  cleanup_idempotent stOpen (by decide)

/-- Claim C3, counterexample: at a concrete open-session state, the
`onerror` callback leaves the microphone stream, both audio contexts,
the session handle and the scheduled sources untouched — it does not
invoke the teardown. -/
theorem onerror_no_teardown_counterexample :
    (onerror stOpen).mediaStream = some [0, 1] ∧
    (onerror stOpen).inputAudioContext = some () ∧
    (onerror stOpen).outputAudioContext = some () ∧
    (onerror stOpen).session = some () ∧
    (onerror stOpen).sources = [5, 6] := by
  refine ⟨rfl, rfl, rfl, rfl, rfl⟩

/-- Claim C3, amended: when the open live session reports a transport
error, the `onerror` callback surfaces the fixed user-visible message
and forces the connected flag to false, but it does not invoke the
teardown — the microphone stream, both audio contexts, the session
handle, the tracked sources, the cursor and the transcripts are left
exactly as they were. -/
theorem onerror_sets_error_only (s : LiveState) :
    (onerror s).error = some "Connection error occurred." ∧
    (onerror s).isConnected = false ∧
    (onerror s).mediaStream = s.mediaStream ∧
    (onerror s).inputAudioContext = s.inputAudioContext ∧
    (onerror s).outputAudioContext = s.outputAudioContext ∧
    (onerror s).session = s.session ∧
    (onerror s).sources = s.sources ∧
    (onerror s).nextStartTime = s.nextStartTime ∧
    (onerror s).transUser = s.transUser ∧
    (onerror s).transModel = s.transModel := by
  refine ⟨rfl, rfl, rfl, rfl, rfl, rfl, rfl, rfl, rfl, rfl⟩

lemma applyAudio_no_timer (d : String → Option ℚ) (now : ℚ) (f : Nat)
    (m : ServerMessage) (s : LiveState) (t : Nat) :
    (applyAudio d now f m s).2.any (timerFiredBy t) = false := by
  unfold applyAudio
  rcases m.audioData with _ | b64 <;> rcases s.outputAudioContext with _ | u <;>
    try rfl
  by_cases hb : b64 = ""
  · simp [hb]
  · simp only [if_neg hb]
    rcases d b64 with _ | dur <;> simp [timerFiredBy]

lemma applyInterrupted_no_timer (m : ServerMessage) (s : LiveState) (t : Nat) :
    (applyInterrupted m s).2.any (timerFiredBy t) = false := by
  unfold applyInterrupted
  split
  · simp [List.any_map, timerFiredBy, Function.comp]
  · rfl

lemma onmessage_any_timer (d : String → Option ℚ) (now : ℚ) (fid : Nat)
    (s : LiveState) (m : ServerMessage) (t : Nat) :
    (onmessage d now fid s m).2.any (timerFiredBy t)
      = (m.turnComplete && decide (3000 ≤ t)) := by
  unfold onmessage
  rcases h : m.turnComplete <;>
    simp [List.any_append, applyAudio_no_timer, applyInterrupted_no_timer,
          applyTurnComplete, h, timerFiredBy]

/-- Claim C7: a message carrying the turn-complete flag leaves the
connected flag unchanged, registers the 3000 ms transcript-clearing
timer, and the transcripts observed after the handler are unchanged at
every instant strictly before 3000 ms and empty from 3000 ms on. -/
theorem turn_complete_delayed_clear (d : String → Option ℚ) (now : ℚ)
    (fid : Nat) (s : LiveState) (m : ServerMessage)
    (h : m.turnComplete = true) :
    (onmessage d now fid s m).1.isConnected = s.isConnected ∧
    Effect.setTimer 3000 ∈ (onmessage d now fid s m).2 ∧
    ∀ t : Nat,
      transcriptAt ((onmessage d now fid s m).1.transUser,
          (onmessage d now fid s m).1.transModel)
        (onmessage d now fid s m).2 t
      = if 3000 ≤ t then ("", "")
        else ((onmessage d now fid s m).1.transUser,
              (onmessage d now fid s m).1.transModel) := by
  refine ⟨?_, ?_, ?_⟩
  · unfold onmessage
    rw [applyInterrupted_isConnected, applyAudio_isConnected,
        applyTurnComplete_fst, applyTranscription_isConnected]
  · unfold onmessage
    simp [applyTurnComplete, h, List.mem_append]
  · intro t
    unfold transcriptAt
    rw [onmessage_any_timer, h]
    by_cases ht : 3000 ≤ t <;> simp [ht]

/-- Witness for C7: the concrete turn-complete message, probed one
millisecond before the delay elapses and at the delay. -/
theorem turn_complete_delayed_clear_witness :
    (onmessage decSome 1 7 stOpen msgTurn).1.isConnected = stOpen.isConnected ∧
    Effect.setTimer 3000 ∈ (onmessage decSome 1 7 stOpen msgTurn).2 ∧
    transcriptAt ((onmessage decSome 1 7 stOpen msgTurn).1.transUser,
        (onmessage decSome 1 7 stOpen msgTurn).1.transModel)
      (onmessage decSome 1 7 stOpen msgTurn).2 2999
      = ((onmessage decSome 1 7 stOpen msgTurn).1.transUser,
         (onmessage decSome 1 7 stOpen msgTurn).1.transModel) ∧
    transcriptAt ((onmessage decSome 1 7 stOpen msgTurn).1.transUser,
        (onmessage decSome 1 7 stOpen msgTurn).1.transModel)
      (onmessage decSome 1 7 stOpen msgTurn).2 3000
      = ("", "") := by
  have h := turn_complete_delayed_clear decSome 1 7 stOpen msgTurn rfl
  refine ⟨h.1, h.2.1, ?_, ?_⟩
  · rw [h.2.2 2999]
    simp
  · rw [h.2.2 3000]
    simp

lemma runAudio_cons_noctx (d : String → Option ℚ) (b64 : String) (now : ℚ)
    (id : Nat) (tl : List (String × ℚ × Nat)) (s : LiveState)
    (hoc : s.outputAudioContext = none) :
    runAudio d s ((b64, now, id) :: tl) = runAudio d s tl := by
  simp only [runAudio]
  simp [onmessage, audioMsg, applyTranscription, applyTurnComplete,
        applyInterrupted, applyAudio, hoc]

lemma runAudio_cons_empty (d : String → Option ℚ) (now : ℚ) (id : Nat)
    (tl : List (String × ℚ × Nat)) (s : LiveState) (u : Unit)
    (hoc : s.outputAudioContext = some u) :
    runAudio d s (("", now, id) :: tl) = runAudio d s tl := by
  simp only [runAudio]
  simp [onmessage, audioMsg, applyTranscription, applyTurnComplete,
        applyInterrupted, applyAudio, hoc]

lemma runAudio_cons_decodefail (d : String → Option ℚ) (b64 : String)
    (now : ℚ) (id : Nat) (tl : List (String × ℚ × Nat)) (s : LiveState)
    (u : Unit) (hoc : s.outputAudioContext = some u) (hb : b64 ≠ "")
    (hd : d b64 = none) :
    runAudio d s ((b64, now, id) :: tl)
      = runAudio d { s with nextStartTime := max s.nextStartTime now } tl := by
  simp only [runAudio]
  simp [onmessage, audioMsg, applyTranscription, applyTurnComplete,
        applyInterrupted, applyAudio, hoc, hb, hd]

lemma runAudio_cons_schedule (d : String → Option ℚ) (b64 : String)
    (now : ℚ) (id : Nat) (tl : List (String × ℚ × Nat)) (s : LiveState)
    (u : Unit) (dur : ℚ) (hoc : s.outputAudioContext = some u)
    (hb : b64 ≠ "") (hd : d b64 = some dur) :
    (runAudio d s ((b64, now, id) :: tl)).2
      = (max s.nextStartTime now, dur, now) ::
        (runAudio d
          { s with nextStartTime := max s.nextStartTime now + dur,
                   sources := s.sources ++ [id] } tl).2 := by
  simp only [runAudio]
  simp [onmessage, audioMsg, applyTranscription, applyTurnComplete,
        applyInterrupted, applyAudio, startTimeOf, hoc, hb, hd]

lemma runAudio_start_ge_now (d : String → Option ℚ) :
    ∀ (msgs : List (String × ℚ × Nat)) (s : LiveState),
      ∀ x ∈ (runAudio d s msgs).2, x.2.2 ≤ x.1 := by
  intro msgs
  induction msgs with
  | nil => intro s x hx; simp [runAudio] at hx
  | cons hd tl ih =>
      intro s x hx
      obtain ⟨b64, now, id⟩ := hd
      rcases hoc : s.outputAudioContext with _ | u
      · rw [runAudio_cons_noctx d b64 now id tl s hoc] at hx
        exact ih s x hx
      · by_cases hb : b64 = ""
        · subst hb
          rw [runAudio_cons_empty d now id tl s u hoc] at hx
          exact ih s x hx
        · rcases hdec : d b64 with _ | dur
          · rw [runAudio_cons_decodefail d b64 now id tl s u hoc hb hdec] at hx
            exact ih _ x hx
          · rw [runAudio_cons_schedule d b64 now id tl s u dur hoc hb hdec] at hx
            rcases List.mem_cons.mp hx with hx | hx
            · subst hx
              exact le_max_right _ _
            · exact ih _ x hx

lemma runAudio_first_ge (d : String → Option ℚ) :
    ∀ (msgs : List (String × ℚ × Nat)) (s : LiveState) (x : ℚ × ℚ × ℚ)
      (rest : List (ℚ × ℚ × ℚ)),
      (runAudio d s msgs).2 = x :: rest → s.nextStartTime ≤ x.1 := by
  intro msgs
  induction msgs with
  | nil => intro s x rest hx; simp [runAudio] at hx
  | cons hd tl ih =>
      intro s x rest hx
      obtain ⟨b64, now, id⟩ := hd
      rcases hoc : s.outputAudioContext with _ | u
      · rw [runAudio_cons_noctx d b64 now id tl s hoc] at hx
        exact ih s x rest hx
      · by_cases hb : b64 = ""
        · subst hb
          rw [runAudio_cons_empty d now id tl s u hoc] at hx
          exact ih s x rest hx
        · rcases hdec : d b64 with _ | dur
          · rw [runAudio_cons_decodefail d b64 now id tl s u hoc hb hdec] at hx
            exact le_trans (le_max_left _ _) (ih _ x rest hx)
          · rw [runAudio_cons_schedule d b64 now id tl s u dur hoc hb hdec] at hx
            injection hx with h1 h2
            subst h1
            exact le_max_left _ _

lemma runAudio_chain (d : String → Option ℚ) :
    ∀ (msgs : List (String × ℚ × Nat)) (s : LiveState),
      List.Chain' (fun a b : ℚ × ℚ × ℚ => a.1 + a.2.1 ≤ b.1)
        (runAudio d s msgs).2 := by
  intro msgs
  induction msgs with
  | nil => intro s; simp [runAudio]
  | cons hd tl ih =>
      intro s
      obtain ⟨b64, now, id⟩ := hd
      rcases hoc : s.outputAudioContext with _ | u
      · rw [runAudio_cons_noctx d b64 now id tl s hoc]
        exact ih s
      · by_cases hb : b64 = ""
        · subst hb
          rw [runAudio_cons_empty d now id tl s u hoc]
          exact ih s
        · rcases hdec : d b64 with _ | dur
          · rw [runAudio_cons_decodefail d b64 now id tl s u hoc hb hdec]
            exact ih _
          · rw [runAudio_cons_schedule d b64 now id tl s u dur hoc hb hdec]
            rw [List.chain'_cons']
            refine ⟨?_, ih _⟩
            intro y hy
            rcases hhead : (runAudio d
                { s with nextStartTime := max s.nextStartTime now + dur,
                         sources := s.sources ++ [id] } tl).2 with _ | ⟨z, zs⟩
            · rw [hhead] at hy; simp at hy
            · rw [hhead] at hy
              simp only [List.head?_cons, Option.mem_def, Option.some.injEq] at hy
              subst hy
              exact runAudio_first_ge d tl _ _ zs hhead

/-- Claim C1: across any sequence of inbound audio payloads handled by
the live-session message handler, every scheduled start time is at
least the playback clock's time at the moment of scheduling, and each
successive start time is at least the previous start time plus the
previous buffer's duration — buffers never overlap and are never
scheduled in the past. -/
theorem audio_schedule_no_overlap (d : String → Option ℚ) (s : LiveState)
    (msgs : List (String × ℚ × Nat)) :
    (∀ x ∈ (runAudio d s msgs).2, x.2.2 ≤ x.1) ∧
    List.Chain' (fun a b : ℚ × ℚ × ℚ => a.1 + a.2.1 ≤ b.1)
      (runAudio d s msgs).2 :=
  ⟨runAudio_start_ge_now d msgs s, runAudio_chain d msgs s⟩

/-- Witness for C1: the concrete out-of-order clock sequence `msgsW`
with a failing decode in the middle yields the schedule
`[(10, 2, 3), (20, 2, 4)]`, whose second start respects clock time 4 and
follows the end of the first buffer. -/
theorem audio_schedule_no_overlap_witness :
    ((4 : ℚ) ≤ 20) ∧
    List.Chain' (fun a b : ℚ × ℚ × ℚ => a.1 + a.2.1 ≤ b.1)
      [((10 : ℚ), (2 : ℚ), (3 : ℚ)), (20, 2, 4)] := by
  have h := audio_schedule_no_overlap decSome stOpen msgsW
  have hl : (runAudio decSome stOpen msgsW).2
      = [((10 : ℚ), (2 : ℚ), (3 : ℚ)), (20, 2, 4)] := by
    simp [msgsW, runAudio, onmessage, audioMsg, applyTranscription,
          applyTurnComplete, applyInterrupted, applyAudio, startTimeOf,
          decSome, stOpen]
    norm_num [max_def]
  constructor
  · have := h.1 (20, 2, 4) (by rw [hl]; simp)
    simpa using this
  · rw [hl] at h
    exact h.2

lemma runPoll_done (op : Operation) (polls : List Operation)
    (h : op.done = true) : runPoll op polls = some (op, 0) := by
  rw [runPoll.eq_def]
  simp [h]

lemma runPoll_pre (pre : List Operation) :
    ∀ op : Operation, op.done = false → (∀ p ∈ pre, p.done = false) →
    ∀ last : Operation, last.done = true →
    runPoll op (pre ++ [last]) = some (last, pre.length + 1) := by
  induction pre with
  | nil =>
      intro op h0 _ last hl
      rw [List.nil_append, runPoll]
      simp [h0, runPoll_done last [] hl]
  | cons p pre ih =>
      intro op h0 hall last hl
      rw [List.cons_append, runPoll]
      simp only [h0, Bool.false_eq_true, if_false]
      rw [ih p (hall p (List.mem_cons_self p pre))
            (fun q hq => hall q (List.mem_cons_of_mem p hq)) last hl]
      simp [Nat.add_comm]

lemma runPoll_never (polls : List Operation) :
    ∀ op : Operation, op.done = false → (∀ p ∈ polls, p.done = false) →
    runPoll op polls = none := by
  induction polls with
  | nil =>
      intro op h0 _
      rw [runPoll]
      simp [h0]
  | cons p polls ih =>
      intro op h0 hall
      rw [runPoll]
      simp only [h0, Bool.false_eq_true, if_false]
      rw [ih p (hall p (List.mem_cons_self p polls))
            (fun q hq => hall q (List.mem_cons_of_mem p hq))]

/-- Claim C5: when the submitted job is pending, the k status reports of
`pre` are all pending and the next report is terminal with a result URI,
the polling loop issues exactly k plus one status fetches, the panel
settles in success with the fetched video, and a polling sequence that
never reports done is never exited (no retry bound). -/
theorem video_poll_counts (s : VeoState) (hf : s.hasFile = true)
    (op0 : Operation) (h0 : op0.done = false)
    (pre : List Operation) (hpre : ∀ p ∈ pre, p.done = false)
    (last : Operation) (hl : last.done = true) (herr : last.errorMsg = none)
    (uri : String) (huri : last.videoUri = some uri)
    (hasKey : Bool) (fetchRes : String → Except String String)
    (localUrl : String) (hfetch : fetchRes uri = Except.ok localUrl) :
    runPoll op0 (pre ++ [last]) = some (last, pre.length + 1) ∧
    handleGenerate
        { hasKey := hasKey, submit := Except.ok op0, polls := pre ++ [last],
          fetchResult := fetchRes } s
      = some ({ s with error := none, isLoading := false, status := "",
                       videoUrl := some localUrl }, pre.length + 1) ∧
    ∀ polls : List Operation, (∀ p ∈ polls, p.done = false) →
      runPoll op0 polls = none := by
  refine ⟨runPoll_pre pre op0 h0 hpre last hl, ?_,
          fun polls hp => runPoll_never polls op0 h0 hp⟩
  unfold handleGenerate
  cases hasKey <;>
    simp [hf, runPoll_pre pre op0 h0 hpre last hl, herr, huri, hfetch,
          veoFinally]

/-- Witness for C5: one pending report then a terminal report with URI
"uri1" yields two status fetches and the fetched local URL. -/
theorem video_poll_counts_witness :
    runPoll opPending [opPending, opDoneUri] = some (opDoneUri, 2) ∧
    handleGenerate envOk vsIdle
      = some ({ vsIdle with error := none, isLoading := false, status := "",
                            videoUrl := some "blob:uri1" }, 2) ∧
    runPoll opPending [opPending] = none := by
  have h := video_poll_counts vsIdle rfl opPending rfl [opPending] (by decide)
    opDoneUri rfl rfl "uri1" rfl true (fun u => Except.ok ("blob:" ++ u))
    "blob:uri1" rfl
  exact ⟨h.1, h.2.1, h.2.2 [opPending] (by decide)⟩

/-- Claim C6, counterexample: a remote error payload whose message is
exactly "Requested entity was not found" is not surfaced verbatim — the
panel substitutes a fixed session-expired message. -/
theorem veo_error_verbatim_counterexample :
    handleGenerate envEntityErr vsIdle
      = some ({ vsIdle with
                error := some "Session expired or key invalid. Please try again to select a key.",
                isLoading := false, status := "" }, 0) ∧
    ("Session expired or key invalid. Please try again to select a key."
      : String) ≠ "Requested entity was not found" := by
  constructor
  · rfl
  · decide

/-- Claim C6, amended: on terminal completion with an error payload, the
panel surfaces the remote message verbatim, except that a message
containing "Requested entity was not found" is replaced by a fixed
session-expired message and an empty message by a fixed fallback. -/
theorem veo_error_surfaced_unless_special (s : VeoState) (hf : s.hasFile = true)
    (hasKey : Bool) (op : Operation) (hdone : op.done = true)
    (m : String) (herr : op.errorMsg = some m) (hm : m ≠ "")
    (hni : strIncludes m "Requested entity was not found" = false)
    (polls : List Operation) (fetchRes : String → Except String String) :
    handleGenerate
        { hasKey := hasKey, submit := Except.ok op, polls := polls,
          fetchResult := fetchRes } s
      = some ({ s with error := some m, isLoading := false, status := "" }, 0) := by
  unfold handleGenerate
  cases hasKey <;>
    simp [hf, runPoll_done op polls hdone, herr, hm, veoCatch, hni, veoFinally]

/-- Witness for C6: the ordinary message "boom" is surfaced verbatim. -/
theorem veo_error_surfaced_unless_special_witness :
    handleGenerate envBoom vsIdle
      = some ({ vsIdle with error := some "boom", isLoading := false,
                            status := "" }, 0) :=
  veo_error_surfaced_unless_special vsIdle rfl true opDoneBoom rfl
    "boom" rfl (by decide) (by decide) [] (fun u => Except.ok u)

/-- Claim C9: whenever `handleGenerate` settles — by success, by any
thrown error, or by the no-URI path — the loading flag is false and the
status string is empty. -/
theorem veo_generate_settles_loading (env : VeoEnv) (s : VeoState)
    (r : VeoState × Nat) (hf : s.hasFile = true)
    (h : handleGenerate env s = some r) :
    r.1.isLoading = false ∧ r.1.status = "" := by
  unfold handleGenerate at h
  simp only [hf, Bool.not_true, Bool.false_eq_true, if_false] at h
  repeat' split at h
  all_goals
    first
      | exact Option.noConfusion h
      | (injection h with h2; cases h2; exact ⟨rfl, rfl⟩)

/-- Witness for C9: the concrete successful run of `envOk`. -/
theorem veo_generate_settles_loading_witness :
    ({ vsIdle with error := none, isLoading := false, status := "",
                   videoUrl := some "blob:uri1" } : VeoState).isLoading = false ∧
    ({ vsIdle with error := none, isLoading := false, status := "",
                   videoUrl := some "blob:uri1" } : VeoState).status = "" := by
  have h := veo_generate_settles_loading envOk vsIdle
    ({ vsIdle with error := none, isLoading := false, status := "",
                   videoUrl := some "blob:uri1" }, 2) rfl (by rfl)
  exact h

lemma extractImage_none (ps : List ImgPart)
    (h : ∀ p ∈ ps, p.inlineDataVal = none) : extractImage ps = none := by
  induction ps with
  | nil => rfl
  | cons p ps ih =>
      have hp := h p (List.mem_cons_self p ps)
      simp [extractImage, hp, ih (fun q hq => h q (List.mem_cons_of_mem p hq))]

/-- Claim C8: when the edit response carries no inline-image part, the
image panel settles without throwing — loading cleared, result image
left empty, no alert and no error state. -/
theorem image_no_inline_silent_settle (s : ImgState) (hf : s.hasFile = true)
    (hp : s.prompt ≠ "") (r : ImgResponse)
    (hz : ∀ ps, r.parts = some ps → ∀ p ∈ ps, p.inlineDataVal = none) :
    handleEdit (Except.ok r) s
      = ({ s with loading := false, resultImage := none }, false) := by
  unfold handleEdit
  rcases hps : r.parts with _ | ps
  · simp [hf, hp, hps]
  · simp [hf, hp, hps, extractImage_none ps (hz ps hps)]

/-- Witness for C8: a concrete text-only response against the populated
image panel. -/
theorem image_no_inline_silent_settle_witness :
    handleEdit
        (Except.ok { parts := some [{ inlineDataVal := none, textVal := some "t" }] })
        imgIdle
      = ({ imgIdle with loading := false, resultImage := none }, false) :=
  image_no_inline_silent_settle imgIdle rfl (by decide)
    { parts := some [{ inlineDataVal := none, textVal := some "t" }] }
    (by intro ps hps p hp
        cases hps
        simp at hp
        rw [hp])

/-- Claim C10: each media panel's submit guard returns immediately when
its required inputs are missing — no file for the video panel, no file
or empty prompt for the image panel, an all-whitespace query for the
search panel — leaving the panel state unchanged and consulting none of
the remote results. -/
theorem missing_input_guards :
    (∀ (env : VeoEnv) (s : VeoState), s.hasFile = false →
        handleGenerate env s = some (s, 0)) ∧
    (∀ (resp : Except String ImgResponse) (s : ImgState),
        s.hasFile = false ∨ s.prompt = "" →
        handleEdit resp s = (s, false)) ∧
    (∀ (res : Except String SearchOutcome) (s : SearchState),
        jsTrim s.query = "" → handleSearch res s = s) := by
  refine ⟨?_, ?_, ?_⟩
  · intro env s h
    unfold handleGenerate
    simp [h]
  · intro resp s h
    unfold handleEdit
    rcases h with h | h <;> simp [h]
  · intro res s h
    unfold handleSearch
    simp [h]

/-- Witness for C10: a file-less video panel, an empty-prompt image
panel, and a whitespace-only search query, each against an environment
that would otherwise change the state. -/
theorem missing_input_guards_witness :
    handleGenerate envOk vsNoFile = some (vsNoFile, 0) ∧
    handleEdit (Except.ok { parts := none }) imgNoPrompt
      = (imgNoPrompt, false) ∧
    handleSearch (Except.error "x") srchWs = srchWs := by
  have h := missing_input_guards
  exact ⟨h.1 envOk vsNoFile rfl,
         h.2.1 (Except.ok { parts := none }) imgNoPrompt (Or.inr rfl),
         h.2.2 (Except.error "x") srchWs (by decide)⟩

end LinguistAI
